import Mathlib

/-!
# greetings-api: CI pipeline orchestration (`ci/main.go`) and build task (`ci/tasks/build.go`)

A shallow embedding of the two Go files.

* Go's `(string, error)` return pair is kept as a pair `String × Option GoError`
  (`none` is Go's `nil` error), so that "empty transcript together with the error"
  is a statement about the code and not a consequence of the result type.
* Every collaborator reached through `dag` is a field of `Dag`: a response function
  of the call's arguments.  Within one run each fallible collaborator is called at
  most once, so a response function per collaborator loses no generality.
* Calls are observed through an explicit trace that is threaded through every
  function: entering a stage method and every collaborator call append one event.
* Directory, file, container and secret handles are symbolic terms built by the
  same method names as in the source.
-/

set_option linter.dupNamespace false

namespace Greetings

/-- A Go `error` value. -/
structure GoError where
  msg : String
deriving DecidableEq, Repr

/-- Go's `(string, error)` return pair; `none` stands for the `nil` error. -/
abbrev Result := String × Option GoError

/-- A `*Secret` handle: the `nil` pointer, a secret handed in by the caller, or the
lazy result of `dag.Infisical().GetSecret(name, token, env, path)`. -/
inductive Secret where
  | nil
  | given (id : String)
  | Infisical (name : String) (token : Secret) (env path : String)
deriving DecidableEq, Repr, Inhabited

mutual
/-- A `*Directory` handle. -/
inductive Directory where
  | arg (id : String)
  | empty
  | WithFile (d : Directory) (path : String) (f : File)
  | WithDirectory (d : Directory) (path : String) (sub : Directory)
  | Directory (d : Directory) (path : String)
  | FrontendBuild (src : Directory) (env : String)
  | ofContainer (c : Container) (path : String)
/-- A `*File` handle. -/
inductive File where
  | BackendBinary (dir : Directory)
/-- A `*Container` handle. -/
inductive Container where
  | scratch
  | From (c : Container) (address : String)
  | WithDirectory (c : Container) (path : String) (d : Directory)
  | WithWorkdir (c : Container) (path : String)
  | WithExec (c : Container) (args : List String)
  | WithRegistryAuth (c : Container) (address username : String) (secret : Secret)
  | BackendContainer (dir : Directory) (arch : String)
end

/-- Modelled from the spec: the SDK type `Optional[T]`, which is not declared in the
two source files. "A value that is either present-with-payload or absent". -/
abbrev Optional (α : Type) := Option α

/-- Modelled from the spec: `Optional[T].Get()`, the payload (the zero value when absent)
together with the presence flag. -/
def Optional.Get {α : Type} [Inhabited α] (o : Optional α) : α × Bool :=
  match o with
  | some v => (v, true)
  | none => (default, false)

/-- Modelled from the spec: `Optional[T].GetOr(d)`, the payload when present and `d`
when absent. -/
def Optional.GetOr {α : Type} (o : Optional α) (d : α) : α :=
  match o with
  | some v => v
  | none => d

/-- The methods of `Greetings` whose entry is recorded in the trace. -/
inductive Stage where
  | Lint | UnitTest | Build | Release | Deploy
deriving DecidableEq, Repr

/-- A collaborator call issued through `dag`, with its arguments. -/
inductive Call where
  | BackendLint (dir : Directory)
  | BackendUnitTest (dir : Directory)
  | BackendBinary (dir : Directory)
  | BackendContainer (dir : Directory) (arch : String)
  | FrontendBuild (dir : Directory) (env : String)
  | GetSecret (name : String) (token : Secret) (env path : String)
  | Plaintext (s : Secret)
  | GithubReleaseCreate (repo tag title : String) (token : Secret) (assets : Directory)
  | Publish (c : Container) (address : String) (variants : List Container)
  | FlyDeploy (app imageRef : String) (token : Secret)
  | NetlifyDeploy (dir : Directory) (token : Secret) (site : String)

/-- One observation of a run: a stage method was entered, or a collaborator call was
made and came back with the given error (`none` when it succeeded or cannot fail). -/
inductive Event where
  | enter (s : Stage)
  | call (c : Call) (err : Option GoError)

abbrev Trace := List Event

/-- The fallible collaborators behind `dag`, each as a response function. -/
structure Dag where
  BackendLint : Directory → Result
  BackendUnitTest : Directory → Result
  Plaintext : Secret → Result
  GithubReleaseCreate : String → String → String → Secret → Directory → Result
  Publish : Container → String → List Container → Result
  FlyDeploy : String → String → Secret → Result
  NetlifyDeploy : Directory → Secret → String → Result

/-- A fallible collaborator call: its response is returned and the call is recorded
together with the error it came back with. -/
def invoke (c : Call) (r : Result) (tr : Trace) : Result × Trace :=
  (r, tr ++ [Event.call c r.2])

/-- A lazy collaborator call (it only builds a handle and cannot fail): the handle is
returned and the call is recorded. -/
def request {α : Type} (c : Call) (h : α) (tr : Trace) : α × Trace :=
  (h, tr ++ [Event.call c none])

def REPO : String := "github.com/kpenfound/greetings-api"

def IMAGE : String := "kylepenfound/greetings-api:latest"

/-- `func (g *Greetings) UnitTest(ctx, dir) (string, error)`. -/
def UnitTest (dag : Dag) (dir : Directory) (tr : Trace) : Result × Trace :=
  let tr := tr ++ [Event.enter Stage.UnitTest]
  match invoke (Call.BackendUnitTest dir) (dag.BackendUnitTest dir) tr with
  | ((_, some err), tr) => (("", some err), tr)
  | ((backendResult, none), tr) => ((backendResult, none), tr)

/-- `func (g *Greetings) Lint(ctx, dir) (string, error)`. -/
def Lint (dag : Dag) (dir : Directory) (tr : Trace) : Result × Trace :=
  let tr := tr ++ [Event.enter Stage.Lint]
  match invoke (Call.BackendLint dir) (dag.BackendLint dir) tr with
  | ((_, some err), tr) => (("", some err), tr)
  | ((backendResult, none), tr) => ((backendResult, none), tr)

/-- `func (g *Greetings) Build(dir, env) *Directory`. -/
def Build (dir : Directory) (env : String) (tr : Trace) : Directory × Trace :=
  let tr := tr ++ [Event.enter Stage.Build]
  let (binary, tr) := request (Call.BackendBinary dir) (File.BackendBinary dir) tr
  let (website, tr) := request (Call.FrontendBuild (dir.Directory "website") env)
    (Directory.FrontendBuild (dir.Directory "website") env) tr
  ((Directory.empty.WithFile "/build/greetings-api" binary).WithDirectory "build/website/" website, tr)

/-- `func (g *Greetings) Release(ctx, dir, tag, ghToken) (string, error)`. The result
pair of the release collaborator is returned as it is. -/
def Release (dag : Dag) (dir : Directory) (tag : String) (ghToken : Secret) (tr : Trace) :
    Result × Trace :=
  let tr := tr ++ [Event.enter Stage.Release]
  -- Get build
  let (build, tr) := Build dir "netlify" tr
  -- Compress frontend build
  let assets := Directory.ofContainer
    (((((Container.scratch.From "alpine:3.18").WithDirectory "/assets" build).WithWorkdir
      "/assets/build").WithExec ["tar", "czf", "website.tar.gz", "website/"]).WithExec
      ["rm", "-r", "website"]) "/assets/build"
  let title := "Release " ++ tag
  invoke (Call.GithubReleaseCreate REPO tag title ghToken assets)
    (dag.GithubReleaseCreate REPO tag title ghToken assets) tr

/-- `func fly_deploy(ctx, imageRef, token) (string, error)`. -/
def fly_deploy (dag : Dag) (imageRef : String) (token : Secret) (tr : Trace) : Result × Trace :=
  let app := "dagger-demo"
  invoke (Call.FlyDeploy app imageRef token) (dag.FlyDeploy app imageRef token) tr

/-- `func netlify_deploy(ctx, dir, token) (string, error)`. -/
def netlify_deploy (dag : Dag) (dir : Directory) (token : Secret) (tr : Trace) : Result × Trace :=
  let site := "dagger-demo"
  invoke (Call.NetlifyDeploy dir token site) (dag.NetlifyDeploy dir token site) tr

/-- `func (g *Greetings) Deploy(ctx, dir, flyToken, netlifyToken, registryUser, registryPass)
(string, error)`. -/
def Deploy (dag : Dag) (dir : Directory) (flyToken netlifyToken : Secret) (registryUser : String)
    (registryPass : Secret) (tr : Trace) : Result × Trace :=
  let tr := tr ++ [Event.enter Stage.Deploy]
  -- Backend
  let (backendAmd64, tr) := request (Call.BackendContainer dir "amd64")
    (Container.BackendContainer dir "amd64") tr
  let (backendArm64, tr) := request (Call.BackendContainer dir "arm64")
    (Container.BackendContainer dir "arm64") tr
  let registry := Container.scratch.WithRegistryAuth "index.docker.io" registryUser registryPass
  match invoke (Call.Publish registry IMAGE [backendAmd64, backendArm64])
      (dag.Publish registry IMAGE [backendAmd64, backendArm64]) tr with
  | ((_, some err), tr) => (("", some err), tr)
  | ((_, none), tr) =>
  match fly_deploy dag IMAGE flyToken tr with
  | ((_, some err), tr) => (("", some err), tr)
  | ((backendResult, none), tr) =>
  -- Frontend
  let (frontend, tr) := request (Call.FrontendBuild (dir.Directory "website") "netlify")
    (Directory.FrontendBuild (dir.Directory "website") "netlify") tr
  match netlify_deploy dag frontend netlifyToken tr with
  | ((_, some err), tr) => (("", some err), tr)
  | ((frontendResult, none), tr) =>
  (("BACKEND\n\n" ++ backendResult ++ "\n\nFRONTEND\n\n" ++ frontendResult, none), tr)

/-- `dag.Infisical().GetSecret(name, token, env, path)`: a lazy vault lookup. -/
def GetSecret (name : String) (token : Secret) (env path : String) (tr : Trace) : Secret × Trace :=
  request (Call.GetSecret name token env path) (Secret.Infisical name token env path) tr

/-- `func (g *Greetings) Ci(ctx, dir, release, tag, infisicalToken) (string, error)`.
The `if tagSet` block either leaves the function with an error (`Except.error`) or
falls through with the transcript so far (`Except.ok`). -/
def Ci (dag : Dag) (dir : Directory) (release : Optional Bool) (tag : Optional String)
    (infisicalToken : Optional Secret) (tr : Trace) : Result × Trace :=
  match Lint dag dir tr with
  | ((_, some err), tr) => (("", some err), tr)
  | ((out, none), tr) =>
  match UnitTest dag dir tr with
  | ((_, some err), tr) => (("", some err), tr)
  | ((testOut, none), tr) =>
  let out := out ++ "\n" ++ testOut
  let (infisical, isset) := infisicalToken.Get
  if release.GetOr false && isset then
    let (tag_, tagSet) := tag.Get
    let (ghToken, tr) := GetSecret "GH_RELEASE_TOKEN" infisical "dev" "/" tr
    match (if tagSet then
        match Release dag dir tag_ ghToken tr with
        | ((_, some err), tr) => ((Except.error err : Except GoError String), tr)
        | ((releaseOut, none), tr) => (Except.ok (out ++ "\n" ++ releaseOut), tr)
      else (Except.ok out, tr)) with
    | (Except.error err, tr) => (("", some err), tr)
    | (Except.ok out, tr) =>
    let (flyToken, tr) := GetSecret "FLY_TOKEN" infisical "dev" "/" tr
    let (netlifyToken, tr) := GetSecret "NETLIFY_TOKEN" infisical "dev" "/" tr
    let (dockerUser, tr) := GetSecret "DOCKERHUB_USER" infisical "dev" "/" tr
    match invoke (Call.Plaintext dockerUser) (dag.Plaintext dockerUser) tr with
    | ((_, some err), tr) => (("", some err), tr)
    | ((registryUser, none), tr) =>
    let (registryPass, tr) := GetSecret "DOCKERHUB_PASSWORD" infisical "dev" "/" tr
    match Deploy dag dir flyToken netlifyToken registryUser registryPass tr with
    | ((_, some err), tr) => (("", some err), tr)
    | ((deployOut, none), tr) => ((out ++ "\n" ++ deployOut, none), tr)
  else
    ((out, none), tr)

/-- Whether the event is the entry into stage method `s`. -/
def Event.isEnter (s : Stage) : Event → Bool
  | Event.enter s' => decide (s' = s)
  | Event.call _ _ => false

/-- Whether the event is a vault lookup (`dag.Infisical().GetSecret`). -/
def Event.isVaultLookup : Event → Bool
  | Event.call (Call.GetSecret _ _ _ _) _ => true
  | _ => false

/-- Whether the event is the lookup of the release credential: secret
`GH_RELEASE_TOKEN`, environment `dev`, path `/`. -/
def Event.isReleaseCredentialLookup : Event → Bool
  | Event.call (Call.GetSecret name _ env path) _ =>
    decide (name = "GH_RELEASE_TOKEN") && decide (env = "dev") && decide (path = "/")
  | _ => false

/-- The error a recorded collaborator call came back with, if any. -/
def Event.failure : Event → Option GoError
  | Event.call _ err => err
  | Event.enter _ => none

/-- Whether stage method `s` was entered during the run that produced `tr`. -/
def invoked (s : Stage) (tr : Trace) : Bool := tr.any (Event.isEnter s)

/-- Whether any vault lookup was made during the run that produced `tr`. -/
def vaultUsed (tr : Trace) : Bool := tr.any Event.isVaultLookup

/-- The release/deploy gate of `Ci`: the release flag is present and true and the vault
token is present (`release.GetOr(false) && isset`). -/
def gate (release : Optional Bool) (infisicalToken : Optional Secret) : Bool :=
  release.GetOr false && infisicalToken.Get.2

/-- Whether the event is the image publish. -/
def Event.isPublish : Event → Bool
  | Event.call (Call.Publish _ _ _) _ => true
  | _ => false

/-- Whether the event is the application-host deploy. -/
def Event.isFlyDeploy : Event → Bool
  | Event.call (Call.FlyDeploy _ _ _) _ => true
  | _ => false

/-- Whether the event is the static-site deploy. -/
def Event.isNetlifyDeploy : Event → Bool
  | Event.call (Call.NetlifyDeploy _ _ _) _ => true
  | _ => false

/-- The image publish call made by `Deploy`. -/
def publishCall (dir : Directory) (registryUser : String) (registryPass : Secret) : Call :=
  Call.Publish (Container.scratch.WithRegistryAuth "index.docker.io" registryUser registryPass)
    IMAGE [Container.BackendContainer dir "amd64", Container.BackendContainer dir "arm64"]

/-- The response of the registry to the image publish call made by `Deploy`. -/
def publishResponse (dag : Dag) (dir : Directory) (registryUser : String)
    (registryPass : Secret) : Result :=
  dag.Publish (Container.scratch.WithRegistryAuth "index.docker.io" registryUser registryPass)
    IMAGE [Container.BackendContainer dir "amd64", Container.BackendContainer dir "arm64"]

/-- The application-host deploy call made by `Deploy` through `fly_deploy`. -/
def flyCall (flyToken : Secret) : Call := Call.FlyDeploy "dagger-demo" IMAGE flyToken

/-- The response of the application host to the deploy call made by `Deploy`. -/
def flyResponse (dag : Dag) (flyToken : Secret) : Result :=
  dag.FlyDeploy "dagger-demo" IMAGE flyToken

/-- The static-site deploy call made by `Deploy` through `netlify_deploy`. -/
def netlifyCall (dir : Directory) (netlifyToken : Secret) : Call :=
  Call.NetlifyDeploy (Directory.FrontendBuild (dir.Directory "website") "netlify") netlifyToken
    "dagger-demo"

/-- The response of the static-site host to the deploy call made by `Deploy`. -/
def netlifyResponse (dag : Dag) (dir : Directory) (netlifyToken : Secret) : Result :=
  dag.NetlifyDeploy (Directory.FrontendBuild (dir.Directory "website") "netlify") netlifyToken
    "dagger-demo"

/-- The report of the Lint stage run on its own. -/
def lintReport (dag : Dag) (dir : Directory) : String := (Lint dag dir []).1.1

/-- The report of the UnitTest stage run on its own. -/
def testReport (dag : Dag) (dir : Directory) : String := (UnitTest dag dir []).1.1

/-- The report of the Release stage run on its own, with the arguments `Ci` gives it
for the tag `tg` and the vault token `t`. -/
def releaseResult (dag : Dag) (dir : Directory) (tg : String) (t : Secret) : String :=
  (Release dag dir tg (GetSecret "GH_RELEASE_TOKEN" t "dev" "/" []).1 []).1.1

/-- The report of the Deploy stage run on its own, with the arguments `Ci` gives it
for the vault token `t`. -/
def deployReport (dag : Dag) (dir : Directory) (t : Secret) : String :=
  (Deploy dag dir (GetSecret "FLY_TOKEN" t "dev" "/" []).1
    (GetSecret "NETLIFY_TOKEN" t "dev" "/" []).1
    (dag.Plaintext (GetSecret "DOCKERHUB_USER" t "dev" "/" []).1).1
    (GetSecret "DOCKERHUB_PASSWORD" t "dev" "/" []).1 []).1.1

/-- A `Dag` whose collaborators answer with fixed responses, whatever the arguments. -/
def scripted (lint test plain rel pub fly net : Result) : Dag where
  BackendLint := fun _ => lint
  BackendUnitTest := fun _ => test
  Plaintext := fun _ => plain
  GithubReleaseCreate := fun _ _ _ _ _ => rel
  Publish := fun _ _ _ => pub
  FlyDeploy := fun _ _ _ => fly
  NetlifyDeploy := fun _ _ _ => net

/-- The error used in the concrete runs below. -/
def boom : GoError := GoError.mk "boom"

/-- Every collaborator succeeds. -/
def okDag : Dag :=
  scripted ("lint ok", none) ("test ok", none) ("user", none) ("released", none)
    ("pushed", none) ("fly ok", none) ("netlify ok", none)

/-- The linter fails; it still hands back some text, as a Go callee may. -/
def lintFailDag : Dag :=
  scripted ("half a report", some boom) ("test ok", none) ("user", none) ("released", none)
    ("pushed", none) ("fly ok", none) ("netlify ok", none)

/-- The release collaborator fails, everything else succeeds. -/
def releaseFailDag : Dag :=
  scripted ("lint ok", none) ("test ok", none) ("user", none) ("", some boom)
    ("pushed", none) ("fly ok", none) ("netlify ok", none)

/-- The image publish fails, everything else succeeds. -/
def publishFailDag : Dag :=
  scripted ("lint ok", none) ("test ok", none) ("user", none) ("released", none)
    ("", some boom) ("fly ok", none) ("netlify ok", none)

/-- The static-site deploy fails, everything else succeeds. -/
def netlifyFailDag : Dag :=
  scripted ("lint ok", none) ("test ok", none) ("user", none) ("released", none)
    ("pushed", none) ("fly ok", none) ("half done", some boom)

/-- The source tree used in the concrete runs below. -/
def tree0 : Directory := Directory.arg "."

/-- The vault token used in the concrete runs below. -/
def vault0 : Secret := Secret.given "infisical"

end Greetings

namespace tasks

open Greetings (GoError)

/-- A `*dagger.CacheVolume` handle, identified by its key. -/
structure CacheVolume where
  key : String
deriving DecidableEq, Repr

mutual
/-- A `*dagger.Directory` handle of `build.go`. -/
inductive Directory where
  | host (path : String)
  | empty
  | WithFile (d : Directory) (path : String) (f : File)
/-- A `*dagger.File` handle of `build.go`. -/
inductive File where
  | ofContainer (c : Container) (path : String)
/-- A `*dagger.Container` handle of `build.go`. -/
inductive Container where
  | scratch
  | From (c : Container) (address : String)
  | WithMountedDirectory (c : Container) (path : String) (d : Directory)
  | WithWorkdir (c : Container) (path : String)
  | WithMountedCache (c : Container) (path : String) (cache : CacheVolume)
  | WithEnvVariable (c : Container) (name value : String)
  | WithExec (c : Container) (args : List String)
end

/-- Modelled from the spec: what `Directory.WithFile` of the engine does to a tree, which
the source only calls. "The aggregate tree is the union of all per-variant writes",
keyed by path: the file found at `p` is the one of the latest write to `p`. Only the
files written on top of the base directory are listed. -/
def Directory.file? : Directory → String → Option File
  | Directory.host _, _ => none
  | Directory.empty, _ => none
  | Directory.WithFile d path f, p => if p = path then some f else d.file? p

/-- Modelled from the spec: the paths written into a tree by `Directory.WithFile`, in
the order of the writes. -/
def Directory.paths : Directory → List String
  | Directory.host _ => []
  | Directory.empty => []
  | Directory.WithFile d path _ => d.paths ++ [path]

/-- `var archs = []string{"amd64", "arm64"}`. -/
def archs : List String := ["amd64", "arm64"]

/-- The local slice `goversions` of `Build`. -/
def goversions : List String := ["1.18", "1.19"]

/-- The local `builder` of one loop iteration of `Build`. -/
def builder (src : Directory) (cache : CacheVolume) (goversion : String) : Container :=
  let image := "golang:" ++ goversion
  ((((((Container.scratch.From image).WithMountedDirectory "/src" src).WithWorkdir
    "/src").WithMountedCache "/cache" cache).WithEnvVariable "GOMODCACHE" "/cache").WithExec
    ["go", "build", "-o", "/src/greetings-api"])

/-- The local `outputfile` of one loop iteration of `Build`. -/
def outputfile (goversion : String) : String :=
  "output/" ++ goversion ++ "/greetings-api"

/-- The loop `for _, goversion := range goversions` of `Build`. Its state is the
tree `buildoutput` together with the log of the build containers set up so far. -/
def forRange (src : Directory) (cache : CacheVolume) :
    List String → Directory × List Container → Directory × List Container
  | [], st => st
  | goversion :: rest, (buildoutput, builds) =>
    let b := builder src cache goversion
    -- Get Command Output
    let buildoutput := buildoutput.WithFile (outputfile goversion) (File.ofContainer b "/src/greetings-api")
    forRange src cache rest (buildoutput, builds ++ [b])

/-- The engine behind `Build`: the outcome of `dagger.Connect` and the error of
`Directory.Export`. -/
structure Engine where
  Connect : Option GoError
  Export : Directory → String → Option GoError

/-- What a run of `Build` did: the error it returned, the build containers it set up,
and the tree it handed to `Export` (if it got that far). -/
structure BuildRun where
  err : Option GoError
  builds : List Container
  exported : Option Directory

/-- `func Build(ctx context.Context) error`. -/
def Build (e : Engine) : BuildRun :=
  match e.Connect with
  | some err => BuildRun.mk (some err) [] none
  | none =>
  -- get project dir
  let src := Directory.host "."
  let buildoutput := Directory.empty
  let cacheKey := "gomods"
  let cache := CacheVolume.mk cacheKey
  -- multiplatform tests
  let (buildoutput, builds) := forRange src cache goversions (buildoutput, [])
  match e.Export buildoutput "." with
  | some err => BuildRun.mk (some err) builds (some buildoutput)
  | none => BuildRun.mk none builds (some buildoutput)

/-- The tree assembled by the loop of `Build` when it iterates the versions `vs`. -/
def outputTree (vs : List String) : Directory :=
  (forRange (Directory.host ".") (CacheVolume.mk "gomods") vs (Directory.empty, [])).1

/-- The artifact `Build` writes for a version: the binary of that version's builder. -/
def artifact (goversion : String) : File :=
  File.ofContainer (builder (Directory.host ".") (CacheVolume.mk "gomods") goversion)
    "/src/greetings-api"

/-- The path at which `Build` puts the artifact of a variant, a pair of a toolchain
version and a target architecture: `output/{version}/greetings-api`, the `outputfile` of
the variant's version. The architecture has no part in it. -/
def variantPath (variant : String × String) : String :=
  outputfile variant.1

/-- An engine on which connecting and exporting both succeed. -/
def okEngine : Engine where
  Connect := none
  Export := fun _ _ => none

end tasks

/-! ## Theorems about `ci/main.go` -/

namespace Greetings

@[simp] theorem Event.failure_call (c : Call) (e : Option GoError) :
    (Event.call c e).failure = e := rfl

@[simp] theorem Event.failure_enter (s : Stage) : (Event.enter s).failure = none := rfl

/-- An event followed by something else in a trace lies in the trace without its last
element. -/
theorem mem_dropLast_of_split {α : Type} (pre post : List α) (a : α) (h : post ≠ []) :
    a ∈ (pre ++ a :: post).dropLast := by
  have h1 : (pre ++ a :: post) = (pre ++ [a]) ++ post := by simp
  rw [h1, List.dropLast_append_of_ne_nil _ h]
  simp

/-- The shape of every run of `Ci`: no call but the last one of the trace has failed;
when the last call failed with `E` the result is `("", E)`; and an error is only ever
returned together with the empty transcript, as the error of the last call. -/
theorem Ci_shape (dag : Dag) (dir : Directory) (release : Optional Bool) (tag : Optional String)
    (infisicalToken : Optional Secret) :
    (∀ ev ∈ (Ci dag dir release tag infisicalToken []).2.dropLast, ev.failure = none) ∧
    (∀ E ev, (Ci dag dir release tag infisicalToken []).2.getLast? = some ev →
      ev.failure = some E → (Ci dag dir release tag infisicalToken []).1 = ("", some E)) ∧
    (∀ E, (Ci dag dir release tag infisicalToken []).1.2 = some E →
      (Ci dag dir release tag infisicalToken []).1.1 = "" ∧
      ∃ ev, (Ci dag dir release tag infisicalToken []).2.getLast? = some ev ∧
        ev.failure = some E) := by
  simp only [Ci, Lint, UnitTest, invoke, request, GetSecret, Optional.Get, Optional.GetOr,
      Deploy, fly_deploy, netlify_deploy, Release, Build]
  generalize dag.BackendLint _ = rl
  rcases rl with ⟨l, _ | e⟩ <;> simp
  generalize dag.BackendUnitTest _ = ru
  rcases ru with ⟨u, _ | e⟩ <;> simp
  rcases release with _ | _ | _ <;> rcases infisicalToken with _ | tok <;> simp
  rcases tag with _ | tg <;> simp
  · generalize dag.Plaintext _ = rp
    rcases rp with ⟨p, _ | e⟩ <;> simp
    generalize dag.Publish _ _ _ = rq
    rcases rq with ⟨q, _ | e⟩ <;> simp
    generalize dag.FlyDeploy _ _ _ = rf
    rcases rf with ⟨f, _ | e⟩ <;> simp
    generalize dag.NetlifyDeploy _ _ _ = rn
    rcases rn with ⟨n, _ | e⟩ <;> simp
  · generalize dag.GithubReleaseCreate _ _ _ _ _ = rr
    rcases rr with ⟨r, _ | e⟩ <;> simp
    generalize dag.Plaintext _ = rp
    rcases rp with ⟨p, _ | e⟩ <;> simp
    generalize dag.Publish _ _ _ = rq
    rcases rq with ⟨q, _ | e⟩ <;> simp
    generalize dag.FlyDeploy _ _ _ = rf
    rcases rf with ⟨f, _ | e⟩ <;> simp
    generalize dag.NetlifyDeploy _ _ _ = rn
    rcases rn with ⟨n, _ | e⟩ <;> simp

/-- C1: when the Lint collaborator fails with `E`, `Ci` returns `("", E)` whatever the
release flag, tag and vault token are; the run consists of the entry into Lint and the
failed lint call only, so UnitTest, Release and Deploy are not invoked and no vault
lookup is made. -/
theorem Ci_lint_failure (dag : Dag) (dir : Directory) (release : Optional Bool)
    (tag : Optional String) (infisicalToken : Optional Secret) (E : GoError)
    (h : (dag.BackendLint dir).2 = some E) :
    (Ci dag dir release tag infisicalToken []).1 = ("", some E) ∧
    (Ci dag dir release tag infisicalToken []).2 =
      [Event.enter Stage.Lint, Event.call (Call.BackendLint dir) (some E)] ∧
    invoked Stage.UnitTest (Ci dag dir release tag infisicalToken []).2 = false ∧
    vaultUsed (Ci dag dir release tag infisicalToken []).2 = false ∧
    invoked Stage.Release (Ci dag dir release tag infisicalToken []).2 = false ∧
    invoked Stage.Deploy (Ci dag dir release tag infisicalToken []).2 = false := by
  have h1 : Ci dag dir release tag infisicalToken [] =
      (("", some E), [Event.enter Stage.Lint, Event.call (Call.BackendLint dir) (some E)]) := by
    rcases hl : dag.BackendLint dir with ⟨l, _ | e⟩
    · simp [hl] at h
    · simp [hl] at h
      subst h
      simp [Ci, Lint, invoke, hl]
  rw [h1]
  simp [invoked, vaultUsed, Event.isEnter, Event.isVaultLookup]

/-- Witness for C1: the run on `lintFailDag` with the gate open. -/
theorem Ci_lint_failure_witness :
    (lintFailDag.BackendLint tree0).2 = some boom ∧
    (Ci lintFailDag tree0 (some true) (some "v1.0") (some vault0) []).1 = ("", some boom) ∧
    (Ci lintFailDag tree0 (some true) (some "v1.0") (some vault0) []).2 =
      [Event.enter Stage.Lint, Event.call (Call.BackendLint tree0) (some boom)] ∧
    invoked Stage.UnitTest (Ci lintFailDag tree0 (some true) (some "v1.0") (some vault0) []).2
      = false ∧
    vaultUsed (Ci lintFailDag tree0 (some true) (some "v1.0") (some vault0) []).2 = false ∧
    invoked Stage.Release (Ci lintFailDag tree0 (some true) (some "v1.0") (some vault0) []).2
      = false ∧
    invoked Stage.Deploy (Ci lintFailDag tree0 (some true) (some "v1.0") (some vault0) []).2
      = false :=
  ⟨rfl, Ci_lint_failure lintFailDag tree0 (some true) (some "v1.0") (some vault0) boom rfl⟩

/-- C5: in every run of `Ci`, a collaborator call that fails with `E` is the last thing
the run does (nothing is invoked after it) and makes `Ci` return exactly `("", E)`;
and whenever `Ci` returns an error the transcript is empty and the error is the one
of the failed call that ends the run, so a non-empty transcript never comes with an
error. -/
theorem Ci_fail_fast (dag : Dag) (dir : Directory) (release : Optional Bool)
    (tag : Optional String) (infisicalToken : Optional Secret) :
    (∀ (pre post : Trace) (ev : Event) (E : GoError),
      (Ci dag dir release tag infisicalToken []).2 = pre ++ ev :: post →
      ev.failure = some E →
        post = [] ∧ (Ci dag dir release tag infisicalToken []).1 = ("", some E)) ∧
    (∀ E, (Ci dag dir release tag infisicalToken []).1.2 = some E →
      (Ci dag dir release tag infisicalToken []).1.1 = "" ∧
      ∃ (pre : Trace) (c : Call),
        (Ci dag dir release tag infisicalToken []).2 = pre ++ [Event.call c (some E)]) ∧
    ¬ ((Ci dag dir release tag infisicalToken []).1.1 ≠ "" ∧
        (Ci dag dir release tag infisicalToken []).1.2 ≠ none) := by
  obtain ⟨h1, h2, h3⟩ := Ci_shape dag dir release tag infisicalToken
  refine ⟨?_, ?_, ?_⟩
  · intro pre post ev E htr hev
    have hpost : post = [] := by
      by_contra hne
      have hmem := mem_dropLast_of_split pre post ev hne
      rw [← htr] at hmem
      have := h1 ev hmem
      rw [this] at hev
      exact Option.noConfusion hev
    refine ⟨hpost, h2 E ev ?_ hev⟩
    rw [htr, hpost]
    simp
  · intro E hE
    obtain ⟨hout, ev, hlast, hev⟩ := h3 E hE
    refine ⟨hout, ?_⟩
    rcases ev with s | ⟨c, err⟩
    · simp at hev
    · simp at hev
      subst hev
      obtain ⟨pre, hsplit⟩ := List.getLast?_eq_some_iff.mp hlast
      exact ⟨pre, c, hsplit⟩
  · rintro ⟨hne, herr⟩
    rcases hE : (Ci dag dir release tag infisicalToken []).1.2 with _ | E
    · exact herr hE
    · exact hne (h3 E hE).1

/-- Witness for C5: on `netlifyFailDag` the static-site deploy is the call that fails; it
ends the run and `Ci` returns `("", boom)`, none of the four reports gathered before. -/
theorem Ci_fail_fast_witness :
    (Ci netlifyFailDag tree0 (some true) (some "v1.0") (some vault0) []).2.getLast? =
      some (Event.call (Call.NetlifyDeploy
        (Directory.FrontendBuild (tree0.Directory "website") "netlify")
        (Secret.Infisical "NETLIFY_TOKEN" vault0 "dev" "/") "dagger-demo") (some boom)) ∧
    (Ci netlifyFailDag tree0 (some true) (some "v1.0") (some vault0) []).1 = ("", some boom) :=
  ⟨rfl, ((Ci_fail_fast netlifyFailDag tree0 (some true) (some "v1.0") (some vault0)).1
    (Ci netlifyFailDag tree0 (some true) (some "v1.0") (some vault0) []).2.dropLast []
    (Event.call (Call.NetlifyDeploy
        (Directory.FrontendBuild (tree0.Directory "website") "netlify")
        (Secret.Infisical "NETLIFY_TOKEN" vault0 "dev" "/") "dagger-demo") (some boom))
    boom rfl rfl).2⟩

/-- C2: in a run of `Ci` in which Lint and UnitTest succeed, Release is invoked exactly
when the release flag is present and true, the vault token is present and the tag is
present. When one of the three is missing, `Ci` returns an error only if some
collaborator call of the run failed; and with the gate closed (flag or token missing)
it returns the lint and test reports with no error at all. -/
theorem Ci_release_iff (dag : Dag) (dir : Directory) (release : Optional Bool)
    (tag : Optional String) (infisicalToken : Optional Secret)
    (hl : (dag.BackendLint dir).2 = none) (hu : (dag.BackendUnitTest dir).2 = none) :
    (invoked Stage.Release (Ci dag dir release tag infisicalToken []).2 = true ↔
      (release = some true ∧ infisicalToken.isSome = true ∧ tag.isSome = true)) ∧
    (¬ (release = some true ∧ infisicalToken.isSome = true ∧ tag.isSome = true) →
      (∀ ev ∈ (Ci dag dir release tag infisicalToken []).2, ev.failure = none) →
      (Ci dag dir release tag infisicalToken []).1.2 = none) ∧
    (gate release infisicalToken = false →
      (Ci dag dir release tag infisicalToken []).1 =
        ((dag.BackendLint dir).1 ++ "\n" ++ (dag.BackendUnitTest dir).1, none)) := by
  refine ⟨?_, ?_, ?_⟩
  · rcases hl1 : dag.BackendLint dir with ⟨l, _ | e⟩
    swap
    · simp [hl1] at hl
    rcases hu1 : dag.BackendUnitTest dir with ⟨u, _ | e⟩
    swap
    · simp [hu1] at hu
    simp only [Ci, Lint, UnitTest, invoke, request, GetSecret, Optional.Get, Optional.GetOr,
      Deploy, fly_deploy, netlify_deploy, Release, Build, hl1, hu1, invoked]
    rcases release with _ | _ | _ <;> rcases infisicalToken with _ | tok <;>
      simp [Event.isEnter]
    rcases tag with _ | tg <;> simp
    · generalize dag.Plaintext _ = rp
      rcases rp with ⟨p, _ | e⟩ <;> simp [Event.isEnter]
      generalize dag.Publish _ _ _ = rq
      rcases rq with ⟨q, _ | e⟩ <;> simp [Event.isEnter]
      generalize dag.FlyDeploy _ _ _ = rf
      rcases rf with ⟨f, _ | e⟩ <;> simp [Event.isEnter]
      generalize dag.NetlifyDeploy _ _ _ = rn
      rcases rn with ⟨n, _ | e⟩ <;> simp [Event.isEnter]
    · generalize dag.GithubReleaseCreate _ _ _ _ _ = rr
      rcases rr with ⟨r, _ | e⟩ <;> simp [Event.isEnter]
      generalize dag.Plaintext _ = rp
      rcases rp with ⟨p, _ | e⟩ <;> simp [Event.isEnter]
      generalize dag.Publish _ _ _ = rq
      rcases rq with ⟨q, _ | e⟩ <;> simp [Event.isEnter]
      generalize dag.FlyDeploy _ _ _ = rf
      rcases rf with ⟨f, _ | e⟩ <;> simp [Event.isEnter]
      generalize dag.NetlifyDeploy _ _ _ = rn
      rcases rn with ⟨n, _ | e⟩ <;> simp [Event.isEnter]
  · intro _ hall
    obtain ⟨_, _, h3⟩ := Ci_shape dag dir release tag infisicalToken
    rcases hE : (Ci dag dir release tag infisicalToken []).1.2 with _ | E
    · rfl
    · obtain ⟨_, ev, hlast, hev⟩ := h3 E hE
      have := hall ev (List.mem_of_getLast?_eq_some hlast)
      rw [this] at hev
      exact Option.noConfusion hev
  · intro hg
    rcases hl1 : dag.BackendLint dir with ⟨l, _ | e⟩
    swap
    · simp [hl1] at hl
    rcases hu1 : dag.BackendUnitTest dir with ⟨u, _ | e⟩
    swap
    · simp [hu1] at hu
    rcases release with _ | _ | _ <;> rcases infisicalToken with _ | tok <;>
      simp [gate, Optional.Get, Optional.GetOr] at hg <;>
      simp [Ci, Lint, UnitTest, invoke, Optional.Get, Optional.GetOr, hl1, hu1]

/-- Witness for C2: on `okDag` with the flag set and the token present but no tag, Release
is not invoked and no error is returned. -/
theorem Ci_release_iff_witness :
    invoked Stage.Release (Ci okDag tree0 (some true) none (some vault0) []).2 = false ∧
    (Ci okDag tree0 (some true) none (some vault0) []).1.2 = none :=
  ⟨by
    have h := (Ci_release_iff okDag tree0 (some true) none (some vault0) rfl rfl).1
    by_contra hc
    simp only [Bool.not_eq_false] at hc
    have := (h.mp hc).2.2
    simp at this,
   (Ci_release_iff okDag tree0 (some true) none (some vault0) rfl rfl).2.1
    (by simp) (by decide)⟩

/-- C3, refuted as stated: on `releaseFailDag` Lint and UnitTest succeed, the release flag
is true and the vault token is present, yet Deploy is not invoked, because the Release
stage fails and `Ci` returns its error. -/
theorem Ci_deploy_depends_on_release :
    (releaseFailDag.BackendLint tree0).2 = none ∧
    (releaseFailDag.BackendUnitTest tree0).2 = none ∧
    gate (some true) (some vault0) = true ∧
    invoked Stage.Deploy (Ci releaseFailDag tree0 (some true) (some "v1.0") (some vault0) []).2
      = false ∧
    (Ci releaseFailDag tree0 (some true) (some "v1.0") (some vault0) []).1 = ("", some boom) ∧
    ¬ (invoked Stage.Deploy
          (Ci releaseFailDag tree0 (some true) (some "v1.0") (some vault0) []).2 = true ↔
        ((some true : Optional Bool) = some true ∧
          (some vault0 : Optional Secret).isSome = true)) := by
  refine ⟨rfl, rfl, rfl, rfl, rfl, ?_⟩
  decide

/-- C3, amended: in a run of `Ci` in which Lint and UnitTest succeed, Deploy is invoked
exactly when the release flag is present and true, the vault token is present, the
Release stage did not fail (the tag is absent, or Release succeeded for the tag), and
the plaintext reveal of the registry username succeeded. Whether the tag is present
does not matter otherwise. -/
theorem Ci_deploy_iff (dag : Dag) (dir : Directory) (release : Optional Bool)
    (tag : Optional String) (infisicalToken : Optional Secret)
    (hl : (dag.BackendLint dir).2 = none) (hu : (dag.BackendUnitTest dir).2 = none) :
    invoked Stage.Deploy (Ci dag dir release tag infisicalToken []).2 = true ↔
      (release = some true ∧ ∃ t, infisicalToken = some t ∧
        (∀ tg, tag = some tg →
          (Release dag dir tg (Secret.Infisical "GH_RELEASE_TOKEN" t "dev" "/") []).1.2 = none) ∧
        (dag.Plaintext (Secret.Infisical "DOCKERHUB_USER" t "dev" "/")).2 = none) := by
  rcases hl1 : dag.BackendLint dir with ⟨l, _ | e⟩
  swap
  · simp [hl1] at hl
  rcases hu1 : dag.BackendUnitTest dir with ⟨u, _ | e⟩
  swap
  · simp [hu1] at hu
  simp only [Ci, Lint, UnitTest, invoke, request, GetSecret, Optional.Get, Optional.GetOr,
    Deploy, fly_deploy, netlify_deploy, Release, Build, hl1, hu1, invoked]
  rcases release with _ | _ | _ <;> rcases infisicalToken with _ | tok <;>
    simp [Event.isEnter]
  rcases tag with _ | tg <;> simp
  · generalize dag.Plaintext _ = rp
    rcases rp with ⟨p, _ | e⟩ <;> simp [Event.isEnter]
    generalize dag.Publish _ _ _ = rq
    rcases rq with ⟨q, _ | e⟩ <;> simp [Event.isEnter]
    generalize dag.FlyDeploy _ _ _ = rf
    rcases rf with ⟨f, _ | e⟩ <;> simp [Event.isEnter]
    generalize dag.NetlifyDeploy _ _ _ = rn
    rcases rn with ⟨n, _ | e⟩ <;> simp [Event.isEnter]
  · generalize dag.GithubReleaseCreate _ _ _ _ _ = rr
    rcases rr with ⟨r, _ | e⟩ <;> simp [Event.isEnter]
    generalize dag.Plaintext _ = rp
    rcases rp with ⟨p, _ | e⟩ <;> simp [Event.isEnter]
    generalize dag.Publish _ _ _ = rq
    rcases rq with ⟨q, _ | e⟩ <;> simp [Event.isEnter]
    generalize dag.FlyDeploy _ _ _ = rf
    rcases rf with ⟨f, _ | e⟩ <;> simp [Event.isEnter]
    generalize dag.NetlifyDeploy _ _ _ = rn
    rcases rn with ⟨n, _ | e⟩ <;> simp [Event.isEnter]

/-- Witness for the amended C3: on `okDag` with the flag set, the token present and no
tag, Deploy is invoked. -/
theorem Ci_deploy_iff_witness :
    invoked Stage.Deploy (Ci okDag tree0 (some true) none (some vault0) []).2 = true :=
  (Ci_deploy_iff okDag tree0 (some true) none (some vault0) rfl rfl).mpr
    ⟨rfl, vault0, rfl, fun _ h => Option.noConfusion h, rfl⟩

/-- C9, refuted as stated: on `okDag` with the gate open and the tag absent, the release
credential `GH_RELEASE_TOKEN` (environment `dev`, path `/`) is looked up in the vault
all the same, although Release is not invoked. -/
theorem Ci_release_credential_without_tag :
    (okDag.BackendLint tree0).2 = none ∧
    (okDag.BackendUnitTest tree0).2 = none ∧
    (Ci okDag tree0 (some true) none (some vault0) []).2.any Event.isReleaseCredentialLookup
      = true ∧
    invoked Stage.Release (Ci okDag tree0 (some true) none (some vault0) []).2 = false ∧
    ¬ ((Ci okDag tree0 (some true) none (some vault0) []).2.any Event.isReleaseCredentialLookup
          = true ↔
        (gate (some true) (some vault0) = true ∧ (none : Optional String).isSome = true)) := by
  refine ⟨rfl, rfl, by decide, rfl, ?_⟩
  decide

/-- C9, amended: in a run of `Ci` in which Lint and UnitTest succeed, the release
credential (secret `GH_RELEASE_TOKEN`, environment `dev`, path `/`) is looked up in the
vault exactly when the gate passes (release flag present and true, vault token
present), whether or not the tag is present. -/
theorem Ci_release_credential_iff (dag : Dag) (dir : Directory) (release : Optional Bool)
    (tag : Optional String) (infisicalToken : Optional Secret)
    (hl : (dag.BackendLint dir).2 = none) (hu : (dag.BackendUnitTest dir).2 = none) :
    ((Ci dag dir release tag infisicalToken []).2.any Event.isReleaseCredentialLookup = true ↔
      gate release infisicalToken = true) := by
  rcases hl1 : dag.BackendLint dir with ⟨l, _ | e⟩
  swap
  · simp [hl1] at hl
  rcases hu1 : dag.BackendUnitTest dir with ⟨u, _ | e⟩
  swap
  · simp [hu1] at hu
  simp only [Ci, Lint, UnitTest, invoke, request, GetSecret, Optional.Get, Optional.GetOr,
    Deploy, fly_deploy, netlify_deploy, Release, Build, hl1, hu1, gate]
  rcases release with _ | _ | _ <;> rcases infisicalToken with _ | tok <;>
    simp [Event.isReleaseCredentialLookup]
  rcases tag with _ | tg <;> simp
  · generalize dag.Plaintext _ = rp
    rcases rp with ⟨p, _ | e⟩ <;> simp [Event.isReleaseCredentialLookup]
    generalize dag.Publish _ _ _ = rq
    rcases rq with ⟨q, _ | e⟩ <;> simp [Event.isReleaseCredentialLookup]
    generalize dag.FlyDeploy _ _ _ = rf
    rcases rf with ⟨f, _ | e⟩ <;> simp [Event.isReleaseCredentialLookup]
    generalize dag.NetlifyDeploy _ _ _ = rn
    rcases rn with ⟨n, _ | e⟩ <;> simp [Event.isReleaseCredentialLookup]
  · generalize dag.GithubReleaseCreate _ _ _ _ _ = rr
    rcases rr with ⟨r, _ | e⟩ <;> simp [Event.isReleaseCredentialLookup]
    generalize dag.Plaintext _ = rp
    rcases rp with ⟨p, _ | e⟩ <;> simp [Event.isReleaseCredentialLookup]
    generalize dag.Publish _ _ _ = rq
    rcases rq with ⟨q, _ | e⟩ <;> simp [Event.isReleaseCredentialLookup]
    generalize dag.FlyDeploy _ _ _ = rf
    rcases rf with ⟨f, _ | e⟩ <;> simp [Event.isReleaseCredentialLookup]
    generalize dag.NetlifyDeploy _ _ _ = rn
    rcases rn with ⟨n, _ | e⟩ <;> simp [Event.isReleaseCredentialLookup]

/-- Witness for the amended C9: on `publishFailDag` with the gate open and a tag, the
release credential is looked up. -/
theorem Ci_release_credential_iff_witness :
    (Ci publishFailDag tree0 (some true) (some "v1.0") (some vault0) []).2.any
      Event.isReleaseCredentialLookup = true :=
  (Ci_release_credential_iff publishFailDag tree0 (some true) (some "v1.0") (some vault0)
    rfl rfl).mpr rfl

/-- C4: in a run of `Ci` in which every invoked collaborator succeeds, no error is
returned and the transcript is the reports of the stages that ran, in the order Lint,
UnitTest, Release, Deploy, with one newline between consecutive reports and nothing
else: lint and test with the gate closed; lint, test, release result and deploy report
with the flag set, a vault token and a tag; lint, test and deploy report with the gate
open and the tag absent. -/
theorem Ci_transcript (dag : Dag) (dir : Directory) (release : Optional Bool)
    (tag : Optional String) (infisicalToken : Optional Secret)
    (hall : ∀ ev ∈ (Ci dag dir release tag infisicalToken []).2, ev.failure = none) :
    (Ci dag dir release tag infisicalToken []).1.2 = none ∧
    (gate release infisicalToken = false →
      (Ci dag dir release tag infisicalToken []).1.1 =
        lintReport dag dir ++ "\n" ++ testReport dag dir) ∧
    (∀ t tg, release = some true → infisicalToken = some t → tag = some tg →
      (Ci dag dir release tag infisicalToken []).1.1 =
        lintReport dag dir ++ "\n" ++ testReport dag dir ++ "\n" ++
          releaseResult dag dir tg t ++ "\n" ++ deployReport dag dir t) ∧
    (∀ t, release = some true → infisicalToken = some t → tag = none →
      (Ci dag dir release tag infisicalToken []).1.1 =
        lintReport dag dir ++ "\n" ++ testReport dag dir ++ "\n" ++ deployReport dag dir t) := by
  revert hall
  simp only [Ci, Lint, UnitTest, invoke, request, GetSecret, Optional.Get, Optional.GetOr,
    Deploy, fly_deploy, netlify_deploy, Release, Build, gate, lintReport, testReport,
    releaseResult, deployReport]
  generalize dag.BackendLint _ = rl
  rcases rl with ⟨l, _ | e⟩ <;> simp
  generalize dag.BackendUnitTest _ = ru
  rcases ru with ⟨u, _ | e⟩ <;> simp
  rcases release with _ | _ | _ <;> rcases infisicalToken with _ | tok <;> simp
  rcases tag with _ | tg <;> simp
  · generalize dag.Plaintext _ = rp
    rcases rp with ⟨p, _ | e⟩ <;> simp
    generalize dag.Publish _ _ _ = rq
    rcases rq with ⟨q, _ | e⟩ <;> simp
    generalize dag.FlyDeploy _ _ _ = rf
    rcases rf with ⟨f, _ | e⟩ <;> simp
    generalize dag.NetlifyDeploy _ _ _ = rn
    rcases rn with ⟨n, _ | e⟩ <;> simp
  · generalize dag.GithubReleaseCreate _ _ _ _ _ = rr
    rcases rr with ⟨r, _ | e⟩ <;> simp
    generalize dag.Plaintext _ = rp
    rcases rp with ⟨p, _ | e⟩ <;> simp
    generalize dag.Publish _ _ _ = rq
    rcases rq with ⟨q, _ | e⟩ <;> simp
    generalize dag.FlyDeploy _ _ _ = rf
    rcases rf with ⟨f, _ | e⟩ <;> simp
    generalize dag.NetlifyDeploy _ _ _ = rn
    rcases rn with ⟨n, _ | e⟩ <;> simp

/-- Witness for C4: the full run on `okDag` with the flag set, the tag `v1.0` and a vault
token returns the four reports in order. -/
theorem Ci_transcript_witness :
    (Ci okDag tree0 (some true) (some "v1.0") (some vault0) []).1 =
      ("lint ok\ntest ok\nreleased\nBACKEND\n\nfly ok\n\nFRONTEND\n\nnetlify ok", none) ∧
    (Ci okDag tree0 (some true) (some "v1.0") (some vault0) []).1.1 =
      lintReport okDag tree0 ++ "\n" ++ testReport okDag tree0 ++ "\n" ++
        releaseResult okDag tree0 "v1.0" vault0 ++ "\n" ++ deployReport okDag tree0 vault0 :=
  ⟨by decide,
   (Ci_transcript okDag tree0 (some true) (some "v1.0") (some vault0) (by decide)).2.2.1
    vault0 "v1.0" rfl rfl rfl⟩

/-- C6: whenever `Deploy` returns a report, that is, when the image publish, the
application-host deploy (result `b`) and the static-site deploy (result `f`) all
succeeded, the report is exactly `"BACKEND\n\n" ++ b ++ "\n\nFRONTEND\n\n" ++ f`; and
`Deploy` returns without an error in no other case. -/
theorem Deploy_report (dag : Dag) (dir : Directory) (flyToken netlifyToken : Secret)
    (registryUser : String) (registryPass : Secret) :
    (∀ b f : String, (publishResponse dag dir registryUser registryPass).2 = none →
      flyResponse dag flyToken = (b, none) → netlifyResponse dag dir netlifyToken = (f, none) →
      (Deploy dag dir flyToken netlifyToken registryUser registryPass []).1 =
        ("BACKEND\n\n" ++ b ++ "\n\nFRONTEND\n\n" ++ f, none)) ∧
    (∀ out : String,
      (Deploy dag dir flyToken netlifyToken registryUser registryPass []).1 = (out, none) →
      ∃ b f : String, (publishResponse dag dir registryUser registryPass).2 = none ∧
        flyResponse dag flyToken = (b, none) ∧ netlifyResponse dag dir netlifyToken = (f, none) ∧
        out = "BACKEND\n\n" ++ b ++ "\n\nFRONTEND\n\n" ++ f) := by
  simp only [Deploy, fly_deploy, netlify_deploy, invoke, request, publishResponse, flyResponse,
    netlifyResponse]
  generalize dag.Publish _ _ _ = rq
  rcases rq with ⟨q, _ | e⟩ <;> simp
  generalize dag.FlyDeploy _ _ _ = rf
  rcases rf with ⟨f, _ | e⟩ <;> simp
  generalize dag.NetlifyDeploy _ _ _ = rn
  rcases rn with ⟨n, _ | e⟩ <;> simp

/-- Witness for C6: the deploy report on `okDag`. -/
theorem Deploy_report_witness :
    (Deploy okDag tree0 vault0 vault0 "user" vault0 []).1 =
      ("BACKEND\n\n" ++ "fly ok" ++ "\n\nFRONTEND\n\n" ++ "netlify ok", none) :=
  (Deploy_report okDag tree0 vault0 vault0 "user" vault0).1 "fly ok" "netlify ok" rfl rfl rfl

/-- C10: `Deploy` makes its collaborator calls in the order image publish,
application-host deploy, static-site deploy, and stops at the first failure. If the
publish fails with `E`, `Deploy` returns `("", E)` and neither deploy call is made; if
the application-host deploy fails with `E`, `Deploy` returns `("", E)` and the
static-site deploy is not made; otherwise all three are made in that order. In every
run each of the three calls is made at most once. -/
theorem Deploy_order (dag : Dag) (dir : Directory) (flyToken netlifyToken : Secret)
    (registryUser : String) (registryPass : Secret) :
    (∀ E, (publishResponse dag dir registryUser registryPass).2 = some E →
      (Deploy dag dir flyToken netlifyToken registryUser registryPass []).1 = ("", some E) ∧
      (Deploy dag dir flyToken netlifyToken registryUser registryPass []).2 =
        [Event.enter Stage.Deploy,
         Event.call (Call.BackendContainer dir "amd64") none,
         Event.call (Call.BackendContainer dir "arm64") none,
         Event.call (publishCall dir registryUser registryPass) (some E)] ∧
      (Deploy dag dir flyToken netlifyToken registryUser registryPass []).2.any
        Event.isFlyDeploy = false ∧
      (Deploy dag dir flyToken netlifyToken registryUser registryPass []).2.any
        Event.isNetlifyDeploy = false) ∧
    (∀ E, (publishResponse dag dir registryUser registryPass).2 = none →
      (flyResponse dag flyToken).2 = some E →
      (Deploy dag dir flyToken netlifyToken registryUser registryPass []).1 = ("", some E) ∧
      (Deploy dag dir flyToken netlifyToken registryUser registryPass []).2 =
        [Event.enter Stage.Deploy,
         Event.call (Call.BackendContainer dir "amd64") none,
         Event.call (Call.BackendContainer dir "arm64") none,
         Event.call (publishCall dir registryUser registryPass) none,
         Event.call (flyCall flyToken) (some E)] ∧
      (Deploy dag dir flyToken netlifyToken registryUser registryPass []).2.any
        Event.isNetlifyDeploy = false) ∧
    ((publishResponse dag dir registryUser registryPass).2 = none →
      (flyResponse dag flyToken).2 = none →
      (Deploy dag dir flyToken netlifyToken registryUser registryPass []).2 =
        [Event.enter Stage.Deploy,
         Event.call (Call.BackendContainer dir "amd64") none,
         Event.call (Call.BackendContainer dir "arm64") none,
         Event.call (publishCall dir registryUser registryPass) none,
         Event.call (flyCall flyToken) none,
         Event.call (Call.FrontendBuild (dir.Directory "website") "netlify") none,
         Event.call (netlifyCall dir netlifyToken) (netlifyResponse dag dir netlifyToken).2]) ∧
    ((Deploy dag dir flyToken netlifyToken registryUser registryPass []).2.countP
        Event.isPublish ≤ 1 ∧
      (Deploy dag dir flyToken netlifyToken registryUser registryPass []).2.countP
        Event.isFlyDeploy ≤ 1 ∧
      (Deploy dag dir flyToken netlifyToken registryUser registryPass []).2.countP
        Event.isNetlifyDeploy ≤ 1) := by
  simp only [Deploy, fly_deploy, netlify_deploy, invoke, request, publishResponse, flyResponse,
    netlifyResponse, publishCall, flyCall, netlifyCall]
  generalize dag.Publish _ _ _ = rq
  rcases rq with ⟨q, _ | e⟩ <;>
    simp [Event.isPublish, Event.isFlyDeploy, Event.isNetlifyDeploy, List.countP_cons]
  generalize dag.FlyDeploy _ _ _ = rf
  rcases rf with ⟨f, _ | e⟩ <;>
    simp [Event.isPublish, Event.isFlyDeploy, Event.isNetlifyDeploy, List.countP_cons]
  generalize dag.NetlifyDeploy _ _ _ = rn
  rcases rn with ⟨n, _ | e⟩ <;>
    simp [Event.isPublish, Event.isFlyDeploy, Event.isNetlifyDeploy, List.countP_cons]

/-- Witness for C10: on `publishFailDag` the run of `Deploy` ends with the failed publish. -/
theorem Deploy_order_witness :
    (Deploy publishFailDag tree0 vault0 vault0 "user" vault0 []).1 = ("", some boom) ∧
    (Deploy publishFailDag tree0 vault0 vault0 "user" vault0 []).2 =
      [Event.enter Stage.Deploy,
       Event.call (Call.BackendContainer tree0 "amd64") none,
       Event.call (Call.BackendContainer tree0 "arm64") none,
       Event.call (publishCall tree0 "user" vault0) (some boom)] ∧
    (Deploy publishFailDag tree0 vault0 vault0 "user" vault0 []).2.any
      Event.isFlyDeploy = false ∧
    (Deploy publishFailDag tree0 vault0 vault0 "user" vault0 []).2.any
      Event.isNetlifyDeploy = false :=
  (Deploy_order publishFailDag tree0 vault0 vault0 "user" vault0).1 boom rfl

end Greetings

/-! ## Theorems about `ci/tasks/build.go` -/

namespace tasks

/-- The output path determines the version: `output/{version}/greetings-api` is injective
in the version. -/
theorem outputfile_injective (v w : String) (h : outputfile v = outputfile w) : v = w := by
  have h1 := congrArg String.data h
  simp only [outputfile, String.data_append, List.append_left_inj, List.append_right_inj] at h1
  exact String.ext h1

/-- The loop appends one write per iterated version to the list of written paths. -/
theorem forRange_paths (src : Directory) (cache : CacheVolume) (vs : List String)
    (d : Directory) (log : List Container) :
    (forRange src cache vs (d, log)).1.paths = d.paths ++ vs.map outputfile := by
  induction vs generalizing d log with
  | nil => simp [forRange]
  | cons v rest ih => simp [forRange, ih, Directory.paths]

/-- The loop sets up one build container per iterated version, in order. -/
theorem forRange_builds (src : Directory) (cache : CacheVolume) (vs : List String)
    (d : Directory) (log : List Container) :
    (forRange src cache vs (d, log)).2 = log ++ vs.map (builder src cache) := by
  induction vs generalizing d log with
  | nil => simp [forRange]
  | cons v rest ih => simp [forRange, ih]

/-- A path that is the output path of no iterated version is left as it was. -/
theorem forRange_file_other (src : Directory) (cache : CacheVolume) (vs : List String)
    (d : Directory) (log : List Container) (p : String)
    (hp : ∀ v ∈ vs, p ≠ outputfile v) :
    (forRange src cache vs (d, log)).1.file? p = d.file? p := by
  induction vs generalizing d log with
  | nil => simp [forRange]
  | cons v rest ih =>
    have hv : p ≠ outputfile v := hp v (List.mem_cons_self v rest)
    have hrest : ∀ w ∈ rest, p ≠ outputfile w := fun w hw => hp w (List.mem_cons_of_mem v hw)
    simp only [forRange]
    rw [ih _ _ hrest]
    simp [Directory.file?, hv]

/-- The output path of an iterated version holds the binary of that version's builder,
wherever in the iteration the version comes and however often. -/
theorem forRange_file_mem (src : Directory) (cache : CacheVolume) (vs : List String)
    (d : Directory) (log : List Container) (v : String) (hv : v ∈ vs) :
    (forRange src cache vs (d, log)).1.file? (outputfile v) =
      some (File.ofContainer (builder src cache v) "/src/greetings-api") := by
  induction vs generalizing d log with
  | nil => simp at hv
  | cons w rest ih =>
    simp only [forRange]
    by_cases hr : v ∈ rest
    · exact ih _ _ hr
    · have hvw : v = w := by
        rcases List.mem_cons.mp hv with h | h
        · exact h
        · exact absurd h hr
      subst hvw
      have hother : ∀ u ∈ rest, outputfile v ≠ outputfile u := by
        intro u hu heq
        exact hr (outputfile_injective v u heq ▸ hu)
      rw [forRange_file_other src cache rest _ _ _ hother]
      simp [Directory.file?]

/-- The file found at a path of the assembled tree, for any iteration order `vs`. -/
theorem outputTree_file (vs : List String) (p : String) :
    ((∃ v ∈ vs, p = outputfile v ∧ (outputTree vs).file? p = some (artifact v)) ∨
      ((∀ v ∈ vs, p ≠ outputfile v) ∧ (outputTree vs).file? p = none)) := by
  by_cases h : ∃ v ∈ vs, p = outputfile v
  · obtain ⟨v, hv, hp⟩ := h
    refine Or.inl ⟨v, hv, hp, ?_⟩
    rw [hp]
    exact forRange_file_mem _ _ vs _ _ v hv
  · have h1 : ∀ v ∈ vs, p ≠ outputfile v := fun v hv hp => h ⟨v, hv, hp⟩
    refine Or.inr ⟨h1, ?_⟩
    simp only [outputTree]
    rw [forRange_file_other _ _ vs _ _ p h1]
    rfl

/-- C7, refuted as stated: with a variant being a pair of a declared toolchain version
and a declared architecture, the tree `Build` hands to `Export` on `okEngine` holds two
artifacts while there are four declared variants, and the distinct variants
`(1.18, amd64)` and `(1.18, arm64)` have the same path `output/1.18/greetings-api`: the
paths of distinct variants are not pairwise distinct and there is not one artifact per
variant. -/
theorem Build_output_tree_not_per_variant :
    (Build okEngine).exported = some (outputTree goversions) ∧
    (outputTree goversions).paths = ["output/1.18/greetings-api", "output/1.19/greetings-api"] ∧
    (outputTree goversions).paths.length = 2 ∧
    (goversions.product archs).length = 4 ∧
    (("1.18", "amd64") : String × String) ∈ goversions.product archs ∧
    (("1.18", "arm64") : String × String) ∈ goversions.product archs ∧
    (("1.18", "amd64") : String × String) ≠ ("1.18", "arm64") ∧
    variantPath ("1.18", "amd64") = "output/1.18/greetings-api" ∧
    variantPath ("1.18", "arm64") = "output/1.18/greetings-api" ∧
    ¬ (∀ p ∈ goversions.product archs, ∀ q ∈ goversions.product archs,
        p ≠ q → variantPath p ≠ variantPath q) ∧
    ¬ ((outputTree goversions).paths.length = (goversions.product archs).length) := by
  refine ⟨rfl, rfl, rfl, rfl, by decide, by decide, by decide, by decide, by decide, ?_,
    by decide⟩
  intro hall
  exact hall ("1.18", "amd64") (by decide) ("1.18", "arm64") (by decide) (by decide) rfl

/-- C7, amended: the tree `Build` hands to `Export` holds exactly one artifact per
declared toolchain version: one write per version, to pairwise distinct paths
`output/{version}/greetings-api`; the file at a version's path is that version's binary
and no other path holds a file; distinct versions have distinct paths; and iterating
the declared versions in any other order gives a tree with the same file at every
path. The declared architectures play no part. -/
theorem Build_output_tree (e : Engine) (h : e.Connect = none) :
    (Build e).exported = some (outputTree goversions) ∧
    (outputTree goversions).paths = goversions.map outputfile ∧
    (outputTree goversions).paths = ["output/1.18/greetings-api", "output/1.19/greetings-api"] ∧
    (outputTree goversions).paths.Nodup ∧
    (∀ v ∈ goversions, (outputTree goversions).file? (outputfile v) = some (artifact v)) ∧
    (∀ p f, (outputTree goversions).file? p = some f →
      ∃ v ∈ goversions, p = outputfile v ∧ f = artifact v) ∧
    (∀ v w : String, v ≠ w → outputfile v ≠ outputfile w) ∧
    (∀ vs : List String, vs.Perm goversions →
      ∀ p, (outputTree vs).file? p = (outputTree goversions).file? p) := by
  have hpaths : (outputTree goversions).paths = goversions.map outputfile := by
    simp only [outputTree]
    rw [forRange_paths]
    rfl
  refine ⟨?_, hpaths, ?_, ?_, ?_, ?_, ?_, ?_⟩
  · simp only [Build, h, outputTree]
    cases e.Export _ "." <;> rfl
  · rw [hpaths]
    rfl
  · rw [hpaths]
    refine List.Nodup.map_on ?_ (by decide)
    intro v _ w _ hvw
    exact outputfile_injective v w hvw
  · intro v hv
    exact forRange_file_mem _ _ goversions _ _ v hv
  · intro p f hf
    rcases outputTree_file goversions p with ⟨v, hv, hp, hfile⟩ | ⟨_, hnone⟩
    · rw [hfile] at hf
      exact ⟨v, hv, hp, (Option.some.inj hf).symm⟩
    · rw [hnone] at hf
      exact Option.noConfusion hf
  · intro v w hne heq
    exact hne (outputfile_injective v w heq)
  · intro vs hperm p
    rcases outputTree_file goversions p with ⟨v, hv, hp, hfile⟩ | ⟨hno, hnone⟩
    · rw [hfile, hp]
      exact forRange_file_mem _ _ vs _ _ v (hperm.mem_iff.mpr hv)
    · rw [hnone]
      simp only [outputTree]
      rw [forRange_file_other _ _ vs _ _ p (fun v hv => hno v (hperm.mem_iff.mp hv))]
      rfl

/-- Witness for the amended C7: on `okEngine`, iterating `1.19` before `1.18` gives the same file at
the path of version `1.18`. -/
theorem Build_output_tree_witness :
    okEngine.Connect = none ∧
    (outputTree ["1.19", "1.18"]).file? "output/1.18/greetings-api" =
      (outputTree goversions).file? "output/1.18/greetings-api" :=
  ⟨rfl, (Build_output_tree okEngine rfl).2.2.2.2.2.2.2 ["1.19", "1.18"]
    (List.Perm.swap "1.18" "1.19" []) "output/1.18/greetings-api"⟩

/-- C8, refuted as stated: a run of `Build` on `okEngine` sets up two builds, while the
product of the declared versions and the declared architectures has four variants; so
the variants cannot each be given a build of their own. -/
theorem Build_not_per_architecture :
    (Build okEngine).builds.length = 2 ∧
    (goversions.product archs).length = 4 ∧
    ¬ ((Build okEngine).builds.length = (goversions.product archs).length) ∧
    ¬ ∃ own : String × String → Container,
        (∀ p ∈ goversions.product archs, own p ∈ (Build okEngine).builds) ∧
        (∀ p ∈ goversions.product archs, ∀ q ∈ goversions.product archs,
          own p = own q → p = q) := by
  refine ⟨rfl, rfl, by decide, ?_⟩
  rintro ⟨own, hmem, hinj⟩
  have hnd : ((goversions.product archs).map own).Nodup :=
    List.Nodup.map_on hinj (by decide)
  have hsub : (goversions.product archs).map own ⊆ (Build okEngine).builds := by
    intro c hc
    obtain ⟨p, hp, rfl⟩ := List.mem_map.mp hc
    exact hmem p hp
  have hlen := (List.Nodup.subperm hnd hsub).length_le
  have h4 : ((goversions.product archs).map own).length = 4 := by
    rw [List.length_map]
    rfl
  have h2 : (Build okEngine).builds.length = 2 := rfl
  omega

/-- C8, amended: `Build` runs the parameterized build once for every declared toolchain
version (go 1.18 and 1.19), parameterized by the version alone through the image
`golang:{version}`; the declared architectures `archs` are not consulted, so there are
two builds. -/
theorem Build_once_per_version (e : Engine) (h : e.Connect = none) :
    (Build e).builds = goversions.map (builder (Directory.host ".") (CacheVolume.mk "gomods")) ∧
    (Build e).builds.length = 2 ∧
    (∀ (src : Directory) (cache : CacheVolume) (v : String),
      builder src cache v =
        ((((((Container.scratch.From ("golang:" ++ v)).WithMountedDirectory "/src"
          src).WithWorkdir "/src").WithMountedCache "/cache" cache).WithEnvVariable
          "GOMODCACHE" "/cache").WithExec ["go", "build", "-o", "/src/greetings-api"])) := by
  have hb : (Build e).builds =
      goversions.map (builder (Directory.host ".") (CacheVolume.mk "gomods")) := by
    simp only [Build, h]
    cases e.Export _ "." <;> simp [forRange_builds]
  refine ⟨hb, ?_, fun _ _ _ => rfl⟩
  rw [hb]
  rfl

/-- Witness for the amended C8: the builds of a run on `okEngine`. -/
theorem Build_once_per_version_witness :
    (Build okEngine).builds =
      goversions.map (builder (Directory.host ".") (CacheVolume.mk "gomods")) :=
  (Build_once_per_version okEngine rfl).1

end tasks
